import Mathlib

/-!
Verification of the "Secure Video Proxy" Cloudflare Worker.

The repository holds two near-identical variants of one request handler:
`src/cloudflare_worder.js` (allowlist block commented out) and
`src/unnamed/part_000` (allowlist block active with two entries).  Both are
shallowly embedded below: platform string primitives (`String.prototype.startsWith`,
`String.prototype.includes`, `atob`, the WHATWG URL parser) are modelled as
executable Lean functions over `List Char`/`String`, the single outbound
`fetch` and the messages of platform-thrown errors are supplied as an explicit
environment, and each handler becomes a pure function from the incoming
request and that environment to the response it returns together with the
outbound request it issues (if any).
-/

/-! ### JavaScript string primitives

`listStartsWith hay sub` models "the list `hay` begins with `sub`";
`listOccurs sub hay` models "`sub` occurs contiguously inside `hay`".
These back `String.prototype.startsWith` and `String.prototype.includes`,
which the worker uses on code-unit sequences (all strings involved are
within the Basic Multilingual Plane, where code units and code points agree).
-/

def listStartsWith : List Char → List Char → Bool
  | _, [] => true
  | [], _ :: _ => false
  | c :: cs, p :: ps => c == p && listStartsWith cs ps

/-- Model of JavaScript `s.startsWith(p)`. -/
def jsStartsWith (s p : String) : Bool :=
  listStartsWith s.data p.data

def listOccurs (sub : List Char) : List Char → Bool
  | [] => sub.isEmpty
  | c :: rest => listStartsWith (c :: rest) sub || listOccurs sub rest

/-- The string `sub` occurs contiguously inside `hay`. -/
def strOccurs (sub hay : String) : Bool :=
  listOccurs sub.data hay.data

/-- Model of JavaScript `s.includes(sub)`. -/
def jsIncludes (s sub : String) : Bool :=
  listOccurs sub.data s.data

/-- Model of the JavaScript expression `x || d` for a nullable string `x`
(as in `request.headers.get('Accept') || '*/*'`): both `null` and the empty
string are falsy, so either selects the default. -/
def jsOrDefault (v : Option String) (d : String) : String :=
  match v with
  | none => d
  | some s => if s = "" then d else s

theorem listStartsWith_trans {a s p : List Char}
    (h₁ : listStartsWith a s = true) (h₂ : listStartsWith s p = true) :
    listStartsWith a p = true := by
  induction p generalizing a s with
  | nil => cases a <;> rfl
  | cons x ps ih =>
    cases s with
    | nil => simp [listStartsWith] at h₂
    | cons y ss =>
      cases a with
      | nil => simp [listStartsWith] at h₁
      | cons z as =>
        simp only [listStartsWith, Bool.and_eq_true, beq_iff_eq] at h₁ h₂ ⊢
        exact ⟨h₁.1.trans h₂.1, ih h₁.2 h₂.2⟩

theorem listOccurs_of_startsWith {u p hay : List Char}
    (hp : listStartsWith u p = true) (h : listOccurs u hay = true) :
    listOccurs p hay = true := by
  induction hay with
  | nil =>
    simp only [listOccurs, List.isEmpty_iff] at h ⊢
    subst h
    cases p with
    | nil => rfl
    | cons x ps => simp [listStartsWith] at hp
  | cons c rest ih =>
    simp only [listOccurs, Bool.or_eq_true] at h ⊢
    rcases h with h | h
    · exact Or.inl (listStartsWith_trans h hp)
    · exact Or.inr (ih h)

theorem listOccurs_head_mem {u hay : List Char} {hd : Char} {tl : List Char}
    (hu : u = hd :: tl) (h : listOccurs u hay = true) : hd ∈ hay := by
  induction hay with
  | nil => subst hu; simp [listOccurs] at h
  | cons c rest ih =>
    simp only [listOccurs, Bool.or_eq_true] at h
    rcases h with h | h
    · subst hu
      simp only [listStartsWith, Bool.and_eq_true, beq_iff_eq] at h
      exact h.1 ▸ List.mem_cons_self c rest
    · exact List.mem_cons_of_mem c (ih h)

theorem listOccurs_append_of_head_notin {u h1 h2 : List Char} {hd : Char} {tl : List Char}
    (hu : u = hd :: tl) (hnotin : hd ∉ h1)
    (h : listOccurs u (h1 ++ h2) = true) : listOccurs u h2 = true := by
  induction h1 with
  | nil => simpa using h
  | cons c rest ih =>
    simp only [List.cons_append, listOccurs, Bool.or_eq_true] at h
    rcases h with h | h
    · subst hu
      simp only [listStartsWith, Bool.and_eq_true, beq_iff_eq] at h
      exact absurd (h.1 ▸ List.mem_cons_self c rest) hnotin
    · exact ih (fun hm => hnotin (List.mem_cons_of_mem c hm)) h

theorem listStartsWith_append_cases {h2 : List Char} :
    ∀ (l1 u : List Char), listStartsWith (l1 ++ h2) u = true →
      listStartsWith l1 u = true ∨ ∃ hh t2, h2 = hh :: t2 ∧ hh ∈ u := by
  intro l1
  induction l1 with
  | nil =>
    intro u h
    cases u with
    | nil => exact Or.inl rfl
    | cons x us =>
      right
      simp only [List.nil_append] at h
      cases h2 with
      | nil => simp [listStartsWith] at h
      | cons hh t2 =>
        simp only [listStartsWith, Bool.and_eq_true, beq_iff_eq] at h
        exact ⟨hh, t2, rfl, h.1 ▸ List.mem_cons_self x us⟩
  | cons c t1 ih =>
    intro u h
    cases u with
    | nil => exact Or.inl rfl
    | cons x us =>
      simp only [List.cons_append, listStartsWith, Bool.and_eq_true] at h ⊢
      rcases ih us h.2 with h' | ⟨hh, t2, he, hm⟩
      · exact Or.inl ⟨h.1, h'⟩
      · exact Or.inr ⟨hh, t2, he, List.mem_cons_of_mem x hm⟩

theorem listOccurs_append_cases {u h1 h2 : List Char}
    (h : listOccurs u (h1 ++ h2) = true) :
    listOccurs u h1 = true ∨ listOccurs u h2 = true ∨
      ∃ hh t2, h2 = hh :: t2 ∧ hh ∈ u := by
  induction h1 with
  | nil => exact Or.inr (Or.inl (by simpa using h))
  | cons c t1 ih =>
    simp only [List.cons_append, listOccurs, Bool.or_eq_true] at h
    rcases h with h | h
    · rcases listStartsWith_append_cases (c :: t1) u h with h' | h'
      · exact Or.inl (by simp only [listOccurs, Bool.or_eq_true]; exact Or.inl h')
      · exact Or.inr (Or.inr h')
    · rcases ih h with h' | h'
      · exact Or.inl (by simp only [listOccurs, Bool.or_eq_true]; exact Or.inr h')
      · exact Or.inr h'

/-! ### Base64: the platform `atob` and the standard encoder

`atob` implements WHATWG forgiving-base64 decoding, the behaviour of the
platform `atob` the worker calls: ASCII whitespace is stripped, a final
group of four may end in one or two `=` padding characters, a final group
of two or three characters is accepted without padding, any other
malformed input is rejected, and leftover bits are discarded.  The padded
terminal groups are handled inline in `decodeQuad` (equivalent to the
WHATWG formulation that first strips trailing `=` when the length is a
multiple of four).  `btoa` is the standard Base64 encoder of a Latin-1
string, modelling how a client produces the `vid` token.
-/

def b64alphabet : List Char :=
  "ABCDEFGHIJKLMNOPQRSTUVWXYZabcdefghijklmnopqrstuvwxyz0123456789+/".data

def encSextet (n : Nat) : Char :=
  b64alphabet.getD n 'A'

def decSextet (c : Char) : Option Nat :=
  b64alphabet.indexOf? c

def isB64Whitespace (c : Char) : Bool :=
  c == '\t' || c == '\n' || c == '\x0c' || c == '\r' || c == ' '

def decodeQuad (c0 c1 c2 c3 : Char) : Option (List Nat) :=
  if c2 = '=' ∧ c3 = '=' then
    match decSextet c0, decSextet c1 with
    | some s0, some s1 => some [s0 * 4 + s1 / 16]
    | _, _ => none
  else if c3 = '=' then
    match decSextet c0, decSextet c1, decSextet c2 with
    | some s0, some s1, some s2 => some [s0 * 4 + s1 / 16, s1 % 16 * 16 + s2 / 4]
    | _, _, _ => none
  else
    match decSextet c0, decSextet c1, decSextet c2, decSextet c3 with
    | some s0, some s1, some s2, some s3 =>
        some [s0 * 4 + s1 / 16, s1 % 16 * 16 + s2 / 4, s2 % 4 * 64 + s3]
    | _, _, _, _ => none

def b64decodeChunks : List Char → Option (List Nat)
  | [] => some []
  | [_] => none
  | [c0, c1] =>
    match decSextet c0, decSextet c1 with
    | some s0, some s1 => some [s0 * 4 + s1 / 16]
    | _, _ => none
  | [c0, c1, c2] =>
    match decSextet c0, decSextet c1, decSextet c2 with
    | some s0, some s1, some s2 => some [s0 * 4 + s1 / 16, s1 % 16 * 16 + s2 / 4]
    | _, _, _ => none
  | [c0, c1, c2, c3] => decodeQuad c0 c1 c2 c3
  | c0 :: c1 :: c2 :: c3 :: c4 :: rest =>
    match decSextet c0, decSextet c1, decSextet c2, decSextet c3,
        b64decodeChunks (c4 :: rest) with
    | some s0, some s1, some s2, some s3, some tail =>
        some ((s0 * 4 + s1 / 16) :: (s1 % 16 * 16 + s2 / 4) :: (s2 % 4 * 64 + s3) :: tail)
    | _, _, _, _, _ => none

/-- Model of the platform `atob`: forgiving-base64 decode to a string whose
code units are the decoded bytes; `none` models the thrown
`InvalidCharacterError`. -/
def atob (s : String) : Option String :=
  match b64decodeChunks (s.data.filter (fun c => !(isB64Whitespace c))) with
  | none => none
  | some bs => some (String.mk (bs.map Char.ofNat))

def b64encodeBytes : List Nat → List Char
  | [] => []
  | [b0] => [encSextet (b0 / 4), encSextet (b0 % 4 * 16), '=', '=']
  | [b0, b1] =>
      [encSextet (b0 / 4), encSextet (b0 % 4 * 16 + b1 / 16), encSextet (b1 % 16 * 4), '=']
  | b0 :: b1 :: b2 :: rest =>
      encSextet (b0 / 4) :: encSextet (b0 % 4 * 16 + b1 / 16) ::
        encSextet (b1 % 16 * 4 + b2 / 64) :: encSextet (b2 % 64) :: b64encodeBytes rest

/-- Standard Base64 of a Latin-1 string (the platform `btoa`), producing the
`vid` token for a given origin URL. -/
def btoa (s : String) : String :=
  String.mk (b64encodeBytes (s.data.map Char.toNat))

theorem decSextet_encSextet : ∀ k < 64, decSextet (encSextet k) = some k := by decide

theorem encSextet_ne_pad : ∀ k < 64, encSextet k ≠ '=' := by decide

theorem encSextet_not_ws (k : Nat) : isB64Whitespace (encSextet k) = false := by
  rcases Nat.lt_or_ge k 64 with hk | hk
  · exact (by decide : ∀ k < 64, isB64Whitespace (encSextet k) = false) k hk
  · unfold encSextet
    rw [List.getD_eq_default]
    · rfl
    · simpa using hk

theorem b64encode_not_ws (bs : List Nat) :
    ∀ c ∈ b64encodeBytes bs, isB64Whitespace c = false := by
  induction bs using b64encodeBytes.induct with
  | case1 => intro c hc; simp [b64encodeBytes] at hc
  | case2 b0 =>
    intro c hc
    simp only [b64encodeBytes, List.mem_cons, List.not_mem_nil, or_false] at hc
    rcases hc with rfl | rfl | rfl | rfl
    · exact encSextet_not_ws _
    · exact encSextet_not_ws _
    · rfl
    · rfl
  | case3 b0 b1 =>
    intro c hc
    simp only [b64encodeBytes, List.mem_cons, List.not_mem_nil, or_false] at hc
    rcases hc with rfl | rfl | rfl | rfl
    · exact encSextet_not_ws _
    · exact encSextet_not_ws _
    · exact encSextet_not_ws _
    · rfl
  | case4 b0 b1 b2 rest ih =>
    intro c hc
    simp only [b64encodeBytes, List.mem_cons] at hc
    rcases hc with rfl | rfl | rfl | rfl | hc
    · exact encSextet_not_ws _
    · exact encSextet_not_ws _
    · exact encSextet_not_ws _
    · exact encSextet_not_ws _
    · exact ih c hc

theorem filter_b64encode (bs : List Nat) :
    (b64encodeBytes bs).filter (fun c => !(isB64Whitespace c)) = b64encodeBytes bs := by
  apply List.filter_eq_self.mpr
  intro a ha
  simp [b64encode_not_ws bs a ha]

theorem b64encodeBytes_cons (b : Nat) (bs : List Nat) :
    ∃ c cs, b64encodeBytes (b :: bs) = c :: cs := by
  rcases bs with _ | ⟨x, _ | ⟨y, r⟩⟩ <;> exact ⟨_, _, rfl⟩

theorem b64decode_encode : ∀ bs : List Nat, (∀ b ∈ bs, b < 256) →
    b64decodeChunks (b64encodeBytes bs) = some bs := by
  intro bs
  induction bs using b64encodeBytes.induct with
  | case1 => intro _; rfl
  | case2 b0 =>
    intro hb
    have h0 : b0 < 256 := hb b0 (by simp)
    have e0 := decSextet_encSextet (b0 / 4) (by omega)
    have e1 := decSextet_encSextet (b0 % 4 * 16) (by omega)
    simp [b64encodeBytes, b64decodeChunks, decodeQuad, e0, e1]
    omega
  | case3 b0 b1 =>
    intro hb
    have h0 : b0 < 256 := hb b0 (by simp)
    have h1 : b1 < 256 := hb b1 (by simp)
    have e0 := decSextet_encSextet (b0 / 4) (by omega)
    have e1 := decSextet_encSextet (b0 % 4 * 16 + b1 / 16) (by omega)
    have e2 := decSextet_encSextet (b1 % 16 * 4) (by omega)
    have hne : encSextet (b1 % 16 * 4) ≠ '=' := encSextet_ne_pad _ (by omega)
    simp [b64encodeBytes, b64decodeChunks, decodeQuad, hne, e0, e1, e2]
    omega
  | case4 b0 b1 b2 rest ih =>
    intro hb
    have h0 : b0 < 256 := hb b0 (by simp)
    have h1 : b1 < 256 := hb b1 (by simp)
    have h2 : b2 < 256 := hb b2 (by simp)
    have e0 := decSextet_encSextet (b0 / 4) (by omega)
    have e1 := decSextet_encSextet (b0 % 4 * 16 + b1 / 16) (by omega)
    have e2 := decSextet_encSextet (b1 % 16 * 4 + b2 / 64) (by omega)
    have e3 := decSextet_encSextet (b2 % 64) (by omega)
    have hne2 : encSextet (b1 % 16 * 4 + b2 / 64) ≠ '=' := encSextet_ne_pad _ (by omega)
    have hne3 : encSextet (b2 % 64) ≠ '=' := encSextet_ne_pad _ (by omega)
    rcases rest with _ | ⟨x, xs⟩
    · simp [b64encodeBytes, b64decodeChunks, decodeQuad, hne2, hne3, e0, e1, e2, e3]
      omega
    · obtain ⟨c, cs, hc⟩ := b64encodeBytes_cons x xs
      have hbtail : ∀ b ∈ x :: xs, b < 256 := by
        intro b hbm
        exact hb b (by simp [List.mem_cons] at hbm ⊢; tauto)
      have ihx := ih hbtail
      simp only [b64encodeBytes, hc, b64decodeChunks, e0, e1, e2, e3]
      rw [← hc, ihx]
      simp
      omega

/-- Decoding the standard Base64 encoding of a Latin-1 string recovers the
string: the platform `atob` is a left inverse of `btoa`. -/
theorem atob_btoa {s : String} (h : ∀ c ∈ s.data, c.toNat < 256) :
    atob (btoa s) = some s := by
  have hb : ∀ b ∈ s.data.map Char.toNat, b < 256 := by
    intro b hbmem
    rcases List.mem_map.mp hbmem with ⟨c, hc, rfl⟩
    exact h c hc
  unfold atob btoa
  have hdata : (String.mk (b64encodeBytes (s.data.map Char.toNat))).data
      = b64encodeBytes (s.data.map Char.toNat) := rfl
  rw [hdata, filter_b64encode, b64decode_encode _ hb]
  simp only [List.map_map, Function.comp]
  have : (fun c => Char.ofNat c.toNat) = (id : Char → Char) := by
    funext c
    simp [Char.ofNat_toNat]
  rw [show (Char.ofNat ∘ Char.toNat) = (id : Char → Char) from funext fun c => Char.ofNat_toNat c]
  simp

/-! ### JSON string escaping

`jsonEscape` models `JSON.stringify` on a string value (the interior of the
produced quoted literal): `"` and `\` are escaped, the common control
characters get their two-character escapes, remaining control characters get
`\u00XX`, and every other character is passed through.
-/

def hexDigitChar (n : Nat) : Char :=
  if n < 10 then Char.ofNat (48 + n) else Char.ofNat (87 + n)

def jsonEscapeChar (c : Char) : List Char :=
  if c == '"' then ['\\', '"']
  else if c == '\\' then ['\\', '\\']
  else if c == '\x08' then ['\\', 'b']
  else if c == '\x0c' then ['\\', 'f']
  else if c == '\n' then ['\\', 'n']
  else if c == '\r' then ['\\', 'r']
  else if c == '\t' then ['\\', 't']
  else if c.toNat < 32 then ['\\', 'u', '0', '0', hexDigitChar (c.toNat / 16), hexDigitChar (c.toNat % 16)]
  else [c]

def jsonEscape (s : String) : String :=
  String.mk ((s.data.map jsonEscapeChar).flatten)

/-- A string none of whose characters require JSON escaping. -/
def noJsonEscape (s : String) : Bool :=
  s.data.all (fun c => jsonEscapeChar c == [c])

theorem flatten_map_jsonEscapeChar {l : List Char}
    (h : ∀ c ∈ l, jsonEscapeChar c = [c]) :
    (l.map jsonEscapeChar).flatten = l := by
  induction l with
  | nil => rfl
  | cons c rest ih =>
    have hc : jsonEscapeChar c = [c] := h c (List.mem_cons_self c rest)
    simp only [List.map_cons, List.flatten_cons, hc, List.singleton_append, List.cons.injEq,
      true_and]
    exact ih (fun a ha => h a (List.mem_cons_of_mem c ha))

theorem jsonEscape_eq_self {s : String} (h : noJsonEscape s = true) :
    jsonEscape s = s := by
  unfold jsonEscape
  unfold noJsonEscape at h
  rw [List.all_eq_true] at h
  rw [flatten_map_jsonEscapeChar (fun c hc => by simpa using h c hc)]

/-! ### The platform URL parser

`parseURL` models `new URL(s)` (equivalently the URL parse performed by
`new Request(s, ...)`) for absolute `http`/`https` URLs, restricted to what
the worker observes: success or failure, and the parsed `hostname`.  After
the scheme, any run of `/` or `\` is skipped; the authority extends to the
next `/`, `\`, `?` or `#`; user information before the last `@` is dropped;
a port after the first `:` must be decimal digits valued at most 65535; the
host must be nonempty and free of forbidden host characters, and is
lowercased.  Percent-encoded, IDNA and IPv6-literal hosts are outside this
model (the worker's claims never involve them); such hosts are rejected.
-/

structure URLModel where
  scheme : String
  hostname : String
deriving DecidableEq, Repr

def forbiddenHostChar (c : Char) : Bool :=
  c == '\x00' || c == '\t' || c == '\n' || c == '\r' || c == ' ' || c == '#' ||
  c == '%' || c == '/' || c == ':' || c == '<' || c == '>' || c == '?' ||
  c == '@' || c == '[' || c == '\\' || c == ']' || c == '^' || c == '|' ||
  128 ≤ c.toNat

def parseAuthority (scheme : String) (authority : List Char) : Option URLModel :=
  let hostPort := (authority.reverse.takeWhile (fun c => !(c == '@'))).reverse
  let host := hostPort.takeWhile (fun c => !(c == ':'))
  let portPart := hostPort.dropWhile (fun c => !(c == ':'))
  let portOk : Bool :=
    match portPart with
    | [] => true
    | _ :: digits =>
        digits.all (fun c => c.isDigit) &&
          decide (digits.foldl (fun a c => a * 10 + (c.toNat - 48)) 0 ≤ 65535)
  if !host.isEmpty && host.all (fun c => !(forbiddenHostChar c)) && portOk then
    some ⟨scheme, String.mk (host.map Char.toLower)⟩
  else none

def parseRemainder (scheme : String) (rest : List Char) : Option URLModel :=
  let afterSlashes := rest.dropWhile (fun c => c == '/' || c == '\\')
  let authority :=
    afterSlashes.takeWhile (fun c => !(c == '/' || c == '\\' || c == '?' || c == '#'))
  parseAuthority scheme authority

/-- Model of the platform URL parser on the strings the worker feeds it. -/
def parseURL (s : String) : Option URLModel :=
  if jsStartsWith s "http://" then parseRemainder "http" (s.data.drop 5)
  else if jsStartsWith s "https://" then parseRemainder "https" (s.data.drop 6)
  else none

/-! ### Data model

`IncomingRequest` carries the parts of the platform request the worker
reads: the method, the `vid` query parameter (`url.searchParams.get('vid')`,
`none` when absent) and the `Accept` and `Range` header values
(`request.headers.get(...)`, `none` when absent).  `Env` supplies the
platform-controlled outcomes: the result of the single outbound `fetch`
(origin response, or the message of the thrown error) and the message of
the `TypeError` thrown when URL parsing of the decoded string fails.
A handler returns the `ProxyResponse` sent to the client together with the
outbound `OutgoingRequest` it issued, or `none` when no fetch was issued.
-/

structure IncomingRequest where
  method : String
  vid : Option String
  accept : Option String
  range : Option String
deriving DecidableEq, Repr

structure OutgoingRequest where
  url : String
  method : String
  headers : List (String × String)
  body : Option String
deriving DecidableEq, Repr

structure OriginResponse where
  status : Nat
  contentType : Option String
  acceptRanges : Option String
  contentLength : Option String
  contentRange : Option String
  body : String
deriving DecidableEq, Repr

inductive FetchOutcome where
  | success : OriginResponse → FetchOutcome
  | failure : String → FetchOutcome
deriving DecidableEq, Repr

structure Env where
  fetch : FetchOutcome
  parseErrMsg : String
deriving DecidableEq, Repr

structure ProxyResponse where
  status : Nat
  headers : List (String × String)
  body : Option String
deriving DecidableEq, Repr

/-! ### Responses and the outbound request, as both source files build them -/

def corsHeaders : List (String × String) :=
  [("Access-Control-Allow-Origin", "*"),
   ("Access-Control-Allow-Methods", "GET, HEAD, OPTIONS"),
   ("Access-Control-Allow-Headers", "Range, Content-Type")]

/-- Response to a CORS preflight: `new Response(null, {headers: ...})`,
status defaulting to 200 and no body. -/
def preflightResponse : ProxyResponse :=
  ⟨200, corsHeaders, none⟩

def jsonHeaders : List (String × String) :=
  [("Content-Type", "application/json")]

def missingIdResponse : ProxyResponse :=
  ⟨400, jsonHeaders, some "\x7b\"error\":\"Missing video ID\"\x7d"⟩

def invalidIdResponse : ProxyResponse :=
  ⟨400, jsonHeaders, some "\x7b\"error\":\"Invalid video ID\"\x7d"⟩

def invalidURLResponse : ProxyResponse :=
  ⟨400, jsonHeaders, some "\x7b\"error\":\"Invalid URL\"\x7d"⟩

def unauthorizedResponse : ProxyResponse :=
  ⟨403, jsonHeaders, some "\x7b\"error\":\"Unauthorized domain\"\x7d"⟩

/-- Body of the top-level catch response:
`JSON.stringify({error: 'Server error', message: error.message})`. -/
def serverErrorBody (msg : String) : String :=
  "\x7b\"error\":\"Server error\",\"message\":\"" ++ jsonEscape msg ++ "\"\x7d"

def serverErrorResponse (msg : String) : ProxyResponse :=
  ⟨500, jsonHeaders, some (serverErrorBody msg)⟩

def userAgentValue : String :=
  "Mozilla/5.0 (Windows NT 10.0; Win64; x64) AppleWebKit/537.36"

/-- The outbound request both files build: method mirrored verbatim from the
incoming request (any method the platform `Request` constructor accepts),
exactly four headers, no body.  `Accept` and `Range` use the JavaScript
`get(...) || default` idiom, so an absent or empty-valued incoming header
selects the default. -/
def buildVideoRequest (originalUrl : String) (req : IncomingRequest) : OutgoingRequest :=
  { url := originalUrl
    method := req.method
    headers :=
      [("User-Agent", userAgentValue),
       ("Accept", jsOrDefault req.accept "*/*"),
       ("Accept-Language", "en-US,en;q=0.9"),
       ("Range", jsOrDefault req.range "")]
    body := none }

/-- The success response both files build: fixed header base (with origin
`Content-Type`/`Accept-Ranges` falling back to defaults via the JavaScript
`get(...) || default` idiom, which treats absent and empty values alike),
CORS headers, fixed `Cache-Control`, then `Content-Length` and
`Content-Range` set only when the origin supplied them (`has()` presence),
origin status verbatim and the origin body streamed. -/
def relayResponse (resp : OriginResponse) : ProxyResponse :=
  { status := resp.status
    headers :=
      [("Content-Type", jsOrDefault resp.contentType "video/mp4"),
       ("Accept-Ranges", jsOrDefault resp.acceptRanges "bytes")] ++ corsHeaders ++
      [("Cache-Control", "public, max-age=3600")] ++
      (match resp.contentLength with
       | some v => [("Content-Length", v)]
       | none => []) ++
      (match resp.contentRange with
       | some v => [("Content-Range", v)]
       | none => [])
    body := some resp.body }

/-! ### The two handlers

`Part000.handleRequestWith` embeds `handleRequest` of `src/unnamed/part_000`
with its inline `allowedDomains` array abstracted as a parameter (the file's
own value is `Part000.allowedDomains`, and `Part000.handleRequest` fixes it).
`Worker.handleRequest` embeds `handleRequest` of `src/cloudflare_worder.js`,
whose allowlist block is commented out; there the URL parse that can throw
is the one inside `new Request(originalUrl, ...)`.  In both, a parse failure
of the decoded URL is caught only by the top-level catch and produces the
500 response carrying the platform error message.
-/

namespace Part000

def allowedDomains : List String :=
  ["commondatastorage.googleapis.com", "storage.googleapis.com"]

def handleRequestWith (allowed : List String) (req : IncomingRequest) (env : Env) :
    ProxyResponse × Option OutgoingRequest :=
  if req.method = "OPTIONS" then
    (preflightResponse, none)
  else
    match req.vid with
    | none => (missingIdResponse, none)
    | some encryptedId =>
      if encryptedId = "" then (missingIdResponse, none)
      else
        match atob encryptedId with
        | none => (invalidIdResponse, none)
        | some originalUrl =>
          if jsStartsWith originalUrl "http://" = false ∧
              jsStartsWith originalUrl "https://" = false then
            (invalidURLResponse, none)
          else
            match parseURL originalUrl with
            | none => (serverErrorResponse env.parseErrMsg, none)
            | some urlObj =>
              if (allowed.any fun domain => jsIncludes urlObj.hostname domain) = false ∧
                  0 < allowed.length then
                (unauthorizedResponse, none)
              else
                match env.fetch with
                | FetchOutcome.failure msg =>
                    (serverErrorResponse msg, some (buildVideoRequest originalUrl req))
                | FetchOutcome.success resp =>
                    (relayResponse resp, some (buildVideoRequest originalUrl req))

def handleRequest (req : IncomingRequest) (env : Env) :
    ProxyResponse × Option OutgoingRequest :=
  handleRequestWith allowedDomains req env

end Part000

namespace Worker

def handleRequest (req : IncomingRequest) (env : Env) :
    ProxyResponse × Option OutgoingRequest :=
  if req.method = "OPTIONS" then
    (preflightResponse, none)
  else
    match req.vid with
    | none => (missingIdResponse, none)
    | some encryptedId =>
      if encryptedId = "" then (missingIdResponse, none)
      else
        match atob encryptedId with
        | none => (invalidIdResponse, none)
        | some originalUrl =>
          if jsStartsWith originalUrl "http://" = false ∧
              jsStartsWith originalUrl "https://" = false then
            (invalidURLResponse, none)
          else
            match parseURL originalUrl with
            | none => (serverErrorResponse env.parseErrMsg, none)
            | some _ =>
                match env.fetch with
                | FetchOutcome.failure msg =>
                    (serverErrorResponse msg, some (buildVideoRequest originalUrl req))
                | FetchOutcome.success resp =>
                    (relayResponse resp, some (buildVideoRequest originalUrl req))

end Worker

/-! ### Case analysis and inequality helpers -/

theorem serverErrorResponse_ne_unauthorized (m : String) :
    serverErrorResponse m ≠ unauthorizedResponse := by
  intro h
  have h5 : (serverErrorResponse m).status = unauthorizedResponse.status :=
    congrArg ProxyResponse.status h
  simp [serverErrorResponse, unauthorizedResponse] at h5

theorem relayResponse_ne_unauthorized (r : OriginResponse) :
    relayResponse r ≠ unauthorizedResponse := by
  intro h
  have hlen := congrArg (fun p => p.headers.length) h
  simp only [relayResponse, unauthorizedResponse, corsHeaders, jsonHeaders] at hlen
  cases hcl : r.contentLength <;> cases hcr : r.contentRange <;>
    simp [hcl, hcr] at hlen

theorem part000_resp_cases (allowed : List String) (req : IncomingRequest) (env : Env) :
    (Part000.handleRequestWith allowed req env).1 = preflightResponse ∨
    (Part000.handleRequestWith allowed req env).1 = missingIdResponse ∨
    (Part000.handleRequestWith allowed req env).1 = invalidIdResponse ∨
    (Part000.handleRequestWith allowed req env).1 = invalidURLResponse ∨
    (Part000.handleRequestWith allowed req env).1 = unauthorizedResponse ∨
    (∃ m, (Part000.handleRequestWith allowed req env).1 = serverErrorResponse m) ∨
    (∃ r, env.fetch = FetchOutcome.success r ∧
      (Part000.handleRequestWith allowed req env).1 = relayResponse r) := by
  unfold Part000.handleRequestWith
  split
  · exact Or.inl rfl
  split
  · exact Or.inr (Or.inl rfl)
  split
  · exact Or.inr (Or.inl rfl)
  split
  · exact Or.inr (Or.inr (Or.inl rfl))
  split
  · exact Or.inr (Or.inr (Or.inr (Or.inl rfl)))
  split
  · exact Or.inr (Or.inr (Or.inr (Or.inr (Or.inr (Or.inl ⟨env.parseErrMsg, rfl⟩)))))
  split
  · exact Or.inr (Or.inr (Or.inr (Or.inr (Or.inl rfl))))
  split
  · next msg heq =>
      exact Or.inr (Or.inr (Or.inr (Or.inr (Or.inr (Or.inl ⟨msg, rfl⟩)))))
  · next resp heq =>
      exact Or.inr (Or.inr (Or.inr (Or.inr (Or.inr (Or.inr ⟨resp, heq, rfl⟩)))))

theorem worker_resp_cases (req : IncomingRequest) (env : Env) :
    (Worker.handleRequest req env).1 = preflightResponse ∨
    (Worker.handleRequest req env).1 = missingIdResponse ∨
    (Worker.handleRequest req env).1 = invalidIdResponse ∨
    (Worker.handleRequest req env).1 = invalidURLResponse ∨
    (∃ m, (Worker.handleRequest req env).1 = serverErrorResponse m) ∨
    (∃ r, env.fetch = FetchOutcome.success r ∧
      (Worker.handleRequest req env).1 = relayResponse r) := by
  unfold Worker.handleRequest
  split
  · exact Or.inl rfl
  split
  · exact Or.inr (Or.inl rfl)
  split
  · exact Or.inr (Or.inl rfl)
  split
  · exact Or.inr (Or.inr (Or.inl rfl))
  split
  · exact Or.inr (Or.inr (Or.inr (Or.inl rfl)))
  split
  · exact Or.inr (Or.inr (Or.inr (Or.inr (Or.inl ⟨env.parseErrMsg, rfl⟩))))
  split
  · next msg heq =>
      exact Or.inr (Or.inr (Or.inr (Or.inr (Or.inl ⟨msg, rfl⟩))))
  · next resp heq =>
      exact Or.inr (Or.inr (Or.inr (Or.inr (Or.inr ⟨resp, heq, rfl⟩))))

theorem scheme_cond_neg {u : String}
    (hs : (jsStartsWith u "http://" || jsStartsWith u "https://") = true) :
    ¬(jsStartsWith u "http://" = false ∧ jsStartsWith u "https://" = false) := by
  simp only [Bool.or_eq_true] at hs
  rcases hs with h | h <;> simp [h]

theorem part000_reduce (allowed : List String) (req : IncomingRequest) (env : Env)
    {t u : String} {obj : URLModel}
    (hm : req.method ≠ "OPTIONS") (hv : req.vid = some t) (ht : t ≠ "")
    (hd : atob t = some u)
    (hs : (jsStartsWith u "http://" || jsStartsWith u "https://") = true)
    (hp : parseURL u = some obj) :
    Part000.handleRequestWith allowed req env =
      if (allowed.any fun domain => jsIncludes obj.hostname domain) = false ∧
          0 < allowed.length then
        (unauthorizedResponse, none)
      else
        match env.fetch with
        | FetchOutcome.failure msg =>
            (serverErrorResponse msg, some (buildVideoRequest u req))
        | FetchOutcome.success resp =>
            (relayResponse resp, some (buildVideoRequest u req)) := by
  unfold Part000.handleRequestWith
  rw [if_neg hm, hv]
  simp only [hd, hp, if_neg ht, if_neg (scheme_cond_neg hs)]

theorem worker_reduce (req : IncomingRequest) (env : Env)
    {t u : String} {obj : URLModel}
    (hm : req.method ≠ "OPTIONS") (hv : req.vid = some t) (ht : t ≠ "")
    (hd : atob t = some u)
    (hs : (jsStartsWith u "http://" || jsStartsWith u "https://") = true)
    (hp : parseURL u = some obj) :
    Worker.handleRequest req env =
      match env.fetch with
      | FetchOutcome.failure msg =>
          (serverErrorResponse msg, some (buildVideoRequest u req))
      | FetchOutcome.success resp =>
          (relayResponse resp, some (buildVideoRequest u req)) := by
  unfold Worker.handleRequest
  rw [if_neg hm, hv]
  simp only [hd, hp, if_neg ht, if_neg (scheme_cond_neg hs)]

/-! ### Claims -/

/-- C7: for every request whose method is OPTIONS, both handlers return
immediately with status 200, no body, and exactly the three CORS headers,
performing no outbound fetch; the result does not depend on the `vid`
parameter (no token decoding occurs). -/
theorem c7_options_preflight (req : IncomingRequest) (env : Env)
    (hm : req.method = "OPTIONS") :
    Part000.handleRequest req env = (preflightResponse, none) ∧
    Worker.handleRequest req env = (preflightResponse, none) ∧
    preflightResponse.status = 200 ∧ preflightResponse.body = none ∧
    preflightResponse.headers =
      [("Access-Control-Allow-Origin", "*"),
       ("Access-Control-Allow-Methods", "GET, HEAD, OPTIONS"),
       ("Access-Control-Allow-Headers", "Range, Content-Type")] := by
  refine ⟨?_, ?_, rfl, rfl, rfl⟩
  · unfold Part000.handleRequest Part000.handleRequestWith
    rw [if_pos hm]
  · unfold Worker.handleRequest
    rw [if_pos hm]

theorem c7_options_preflight_witness :
    Part000.handleRequest ⟨"OPTIONS", some "aHR0cDovLw==", some "*/*", some "bytes=0-1"⟩
        ⟨FetchOutcome.failure "network down", "parse failed"⟩ =
      (preflightResponse, none) :=
  (c7_options_preflight _ _ rfl).1

/-- C8: for every non-OPTIONS request, a missing `vid` yields the 400
Missing-video-ID response and a `vid` whose Base64 decoding fails yields the
400 Invalid-video-ID response, in both handlers; both responses have status
400, so such failures never produce a 500. -/
theorem c8_token_errors (req : IncomingRequest) (env : Env)
    (hm : req.method ≠ "OPTIONS") :
    (req.vid = none →
      Part000.handleRequest req env = (missingIdResponse, none) ∧
      Worker.handleRequest req env = (missingIdResponse, none)) ∧
    (∀ t, req.vid = some t → atob t = none →
      Part000.handleRequest req env = (invalidIdResponse, none) ∧
      Worker.handleRequest req env = (invalidIdResponse, none)) ∧
    missingIdResponse.status = 400 ∧ invalidIdResponse.status = 400 := by
  refine ⟨?_, ?_, rfl, rfl⟩
  · intro hv
    constructor
    · unfold Part000.handleRequest Part000.handleRequestWith
      rw [if_neg hm, hv]
    · unfold Worker.handleRequest
      rw [if_neg hm, hv]
  · intro t hv hd
    have ht : t ≠ "" := by
      intro h
      subst h
      exact absurd hd (by decide)
    constructor
    · unfold Part000.handleRequest Part000.handleRequestWith
      rw [if_neg hm, hv]
      simp only [if_neg ht, hd]
    · unfold Worker.handleRequest
      rw [if_neg hm, hv]
      simp only [if_neg ht, hd]

theorem c8_token_errors_witness :
    Part000.handleRequest ⟨"GET", none, none, none⟩
        ⟨FetchOutcome.failure "network down", "parse failed"⟩ =
      (missingIdResponse, none) ∧
    Worker.handleRequest ⟨"GET", some "!!notbase64!!", none, none⟩
        ⟨FetchOutcome.failure "network down", "parse failed"⟩ =
      (invalidIdResponse, none) :=
  ⟨((c8_token_errors _ _ (by decide)).1 rfl).1,
   ((c8_token_errors _ _ (by decide)).2.1 "!!notbase64!!" rfl (by decide)).2⟩

/-- C10: every response either is the preflight response, or is a relayed
origin response, or carries exactly the single header
`Content-Type: application/json` and one of the statuses 400, 403, 500 —
so every error response has exactly that one header and in particular none
of the three CORS headers. -/
theorem c10_error_response_headers (req : IncomingRequest) (env : Env) :
    ((Part000.handleRequest req env).1 = preflightResponse ∨
      (∃ r, (Part000.handleRequest req env).1 = relayResponse r) ∨
      ((Part000.handleRequest req env).1.headers =
          [("Content-Type", "application/json")] ∧
        ((Part000.handleRequest req env).1.status = 400 ∨
          (Part000.handleRequest req env).1.status = 403 ∨
          (Part000.handleRequest req env).1.status = 500))) ∧
    ((Worker.handleRequest req env).1 = preflightResponse ∨
      (∃ r, (Worker.handleRequest req env).1 = relayResponse r) ∨
      ((Worker.handleRequest req env).1.headers =
          [("Content-Type", "application/json")] ∧
        ((Worker.handleRequest req env).1.status = 400 ∨
          (Worker.handleRequest req env).1.status = 403 ∨
          (Worker.handleRequest req env).1.status = 500))) ∧
    (∀ kv ∈ jsonHeaders,
      kv.1 ≠ "Access-Control-Allow-Origin" ∧ kv.1 ≠ "Access-Control-Allow-Methods" ∧
        kv.1 ≠ "Access-Control-Allow-Headers") := by
  refine ⟨?_, ?_, by decide⟩
  · unfold Part000.handleRequest
    rcases part000_resp_cases Part000.allowedDomains req env with
      h | h | h | h | h | ⟨m, h⟩ | ⟨r, _, h⟩
    · exact Or.inl h
    · exact Or.inr (Or.inr ⟨by rw [h]; rfl, Or.inl (by rw [h]; rfl)⟩)
    · exact Or.inr (Or.inr ⟨by rw [h]; rfl, Or.inl (by rw [h]; rfl)⟩)
    · exact Or.inr (Or.inr ⟨by rw [h]; rfl, Or.inl (by rw [h]; rfl)⟩)
    · exact Or.inr (Or.inr ⟨by rw [h]; rfl, Or.inr (Or.inl (by rw [h]; rfl))⟩)
    · exact Or.inr (Or.inr ⟨by rw [h]; rfl, Or.inr (Or.inr (by rw [h]; rfl))⟩)
    · exact Or.inr (Or.inl ⟨r, h⟩)
  · rcases worker_resp_cases req env with
      h | h | h | h | ⟨m, h⟩ | ⟨r, _, h⟩
    · exact Or.inl h
    · exact Or.inr (Or.inr ⟨by rw [h]; rfl, Or.inl (by rw [h]; rfl)⟩)
    · exact Or.inr (Or.inr ⟨by rw [h]; rfl, Or.inl (by rw [h]; rfl)⟩)
    · exact Or.inr (Or.inr ⟨by rw [h]; rfl, Or.inl (by rw [h]; rfl)⟩)
    · exact Or.inr (Or.inr ⟨by rw [h]; rfl, Or.inr (Or.inr (by rw [h]; rfl))⟩)
    · exact Or.inr (Or.inl ⟨r, h⟩)

/-- C2 counterexample: `part_000` ships a NON-empty allowlist, so a decoded
URL that passes scheme validation and parsing (`https://example.com/v.mp4`)
is rejected with the 403 Unauthorized-domain response and no outbound fetch
— refuting the claim that the shipped configuration never returns 403. -/
theorem c2_counterexample :
    atob "aHR0cHM6Ly9leGFtcGxlLmNvbS92Lm1wNA==" = some "https://example.com/v.mp4" ∧
    jsStartsWith "https://example.com/v.mp4" "https://" = true ∧
    (parseURL "https://example.com/v.mp4").isSome = true ∧
    Part000.allowedDomains ≠ [] ∧
    Part000.handleRequest
        ⟨"GET", some "aHR0cHM6Ly9leGFtcGxlLmNvbS92Lm1wNA==", none, none⟩
        ⟨FetchOutcome.failure "network down", "parse failed"⟩ =
      (unauthorizedResponse, none) ∧
    unauthorizedResponse.status = 403 := by
  refine ⟨by decide, by decide, by decide, by decide, by decide, rfl⟩

/-- C2 amended: in `cloudflare_worder.js` the allowlist block is commented
out, so that handler never returns the 403 Unauthorized-domain response, and
every decoded URL that passes scheme validation and parsing proceeds to the
outbound fetch; `part_000`, by contrast, ships a non-empty allowlist and does
return 403 for hostnames matching no entry. -/
theorem c2_amended :
    (∀ (req : IncomingRequest) (env : Env),
      (Worker.handleRequest req env).1 ≠ unauthorizedResponse) ∧
    (∀ (req : IncomingRequest) (env : Env) (t u : String) (obj : URLModel),
      req.method ≠ "OPTIONS" → req.vid = some t → t ≠ "" → atob t = some u →
      (jsStartsWith u "http://" || jsStartsWith u "https://") = true →
      parseURL u = some obj →
      (Worker.handleRequest req env).2 = some (buildVideoRequest u req)) := by
  constructor
  · intro req env h
    rcases worker_resp_cases req env with h' | h' | h' | h' | ⟨m, h'⟩ | ⟨r, _, h'⟩
    · exact absurd (h'.symm.trans h) (by decide)
    · exact absurd (h'.symm.trans h) (by decide)
    · exact absurd (h'.symm.trans h) (by decide)
    · exact absurd (h'.symm.trans h) (by decide)
    · exact absurd (h'.symm.trans h) (serverErrorResponse_ne_unauthorized m)
    · exact absurd (h'.symm.trans h) (relayResponse_ne_unauthorized r)
  · intro req env t u obj hm hv ht hd hs hp
    rw [worker_reduce req env hm hv ht hd hs hp]
    cases env.fetch <;> rfl

theorem c2_amended_witness :
    (Worker.handleRequest
        ⟨"GET", some "aHR0cHM6Ly9leGFtcGxlLmNvbS92Lm1wNA==", none, none⟩
        ⟨FetchOutcome.success ⟨200, none, none, none, none, "DATA"⟩, "parse failed"⟩).1 ≠
      unauthorizedResponse ∧
    (Worker.handleRequest
        ⟨"GET", some "aHR0cHM6Ly9leGFtcGxlLmNvbS92Lm1wNA==", none, none⟩
        ⟨FetchOutcome.success ⟨200, none, none, none, none, "DATA"⟩, "parse failed"⟩).2 =
      some (buildVideoRequest "https://example.com/v.mp4"
        ⟨"GET", some "aHR0cHM6Ly9leGFtcGxlLmNvbS92Lm1wNA==", none, none⟩) :=
  ⟨c2_amended.1 _ _,
   c2_amended.2 _ _ "aHR0cHM6Ly9leGFtcGxlLmNvbS92Lm1wNA==" "https://example.com/v.mp4"
     ⟨"https", "example.com"⟩ (by decide) rfl (by decide) (by decide) (by decide) (by decide)⟩

/-- C4: when the allowlist is non-empty, the `part_000` handler returns the
403 Unauthorized-domain response exactly when the parsed hostname contains no
allowlist entry as a substring; the match is substring containment, so for
allowlist `["example.com"]` the hostname `cdn.example.com.evil.org` is
allowed and the request proceeds (no 403). -/
theorem c4_allowlist_substring :
    (∀ (allowed : List String) (req : IncomingRequest) (env : Env)
        (t u : String) (obj : URLModel),
      allowed ≠ [] → req.method ≠ "OPTIONS" → req.vid = some t → t ≠ "" →
      atob t = some u →
      (jsStartsWith u "http://" || jsStartsWith u "https://") = true →
      parseURL u = some obj →
      ((Part000.handleRequestWith allowed req env).1 = unauthorizedResponse ↔
        (allowed.any fun domain => jsIncludes obj.hostname domain) = false)) ∧
    jsIncludes "cdn.example.com.evil.org" "example.com" = true ∧
    (parseURL "https://cdn.example.com.evil.org/v.mp4").map URLModel.hostname =
      some "cdn.example.com.evil.org" ∧
    (Part000.handleRequestWith ["example.com"]
        ⟨"GET", some "aHR0cHM6Ly9jZG4uZXhhbXBsZS5jb20uZXZpbC5vcmcvdi5tcDQ=", none, none⟩
        ⟨FetchOutcome.success ⟨200, none, none, none, none, "DATA"⟩, "parse failed"⟩).1 ≠
      unauthorizedResponse := by
  refine ⟨?_, by decide, by decide, by decide⟩
  intro allowed req env t u obj hne hm hv ht hd hs hp
  rw [part000_reduce allowed req env hm hv ht hd hs hp]
  have hlen : 0 < allowed.length := List.length_pos.mpr hne
  by_cases hc : (allowed.any fun domain => jsIncludes obj.hostname domain) = false
  · rw [if_pos ⟨hc, hlen⟩]
    exact iff_of_true rfl hc
  · rw [if_neg (fun hand => hc hand.1)]
    cases henv : env.fetch with
    | failure msg => exact iff_of_false (serverErrorResponse_ne_unauthorized msg) hc
    | success r => exact iff_of_false (relayResponse_ne_unauthorized r) hc

theorem c4_allowlist_substring_witness :
    (Part000.handleRequestWith ["example.com"]
        ⟨"GET", some "aHR0cHM6Ly9jZG4uZXhhbXBsZS5jb20uZXZpbC5vcmcvdi5tcDQ=", none, none⟩
        ⟨FetchOutcome.failure "network down", "parse failed"⟩).1 = unauthorizedResponse ↔
      (["example.com"].any fun domain =>
        jsIncludes (URLModel.mk "https" "cdn.example.com.evil.org").hostname domain) = false :=
  c4_allowlist_substring.1 ["example.com"] _ _
    "aHR0cHM6Ly9jZG4uZXhhbXBsZS5jb20uZXZpbC5vcmcvdi5tcDQ="
    "https://cdn.example.com.evil.org/v.mp4" ⟨"https", "cdn.example.com.evil.org"⟩
    (by decide) (by decide) rfl (by decide) (by decide) (by decide) (by decide)

theorem part000_snd_cases (allowed : List String) (req : IncomingRequest) (env : Env) :
    (Part000.handleRequestWith allowed req env).2 = none ∨
    ∃ u, (Part000.handleRequestWith allowed req env).2 = some (buildVideoRequest u req) := by
  unfold Part000.handleRequestWith
  split
  · exact Or.inl rfl
  split
  · exact Or.inl rfl
  split
  · exact Or.inl rfl
  split
  · exact Or.inl rfl
  split
  · exact Or.inl rfl
  split
  · exact Or.inl rfl
  split
  · exact Or.inl rfl
  split
  · exact Or.inr ⟨_, rfl⟩
  · exact Or.inr ⟨_, rfl⟩

theorem worker_snd_cases (req : IncomingRequest) (env : Env) :
    (Worker.handleRequest req env).2 = none ∨
    ∃ u, (Worker.handleRequest req env).2 = some (buildVideoRequest u req) := by
  unfold Worker.handleRequest
  split
  · exact Or.inl rfl
  split
  · exact Or.inl rfl
  split
  · exact Or.inl rfl
  split
  · exact Or.inl rfl
  split
  · exact Or.inl rfl
  split
  · exact Or.inl rfl
  split
  · exact Or.inr ⟨_, rfl⟩
  · exact Or.inr ⟨_, rfl⟩

/-- C5 counterexample: a non-OPTIONS request with method DELETE reaches the
origin request builder and the outbound request mirrors DELETE — it is not a
GET/HEAD request, refuting the claim that every outbound request is GET/HEAD. -/
theorem c5_counterexample :
    ((Part000.handleRequest
        ⟨"DELETE", some "aHR0cHM6Ly9zdG9yYWdlLmdvb2dsZWFwaXMuY29tL3YubXA0", none, none⟩
        ⟨FetchOutcome.success ⟨200, none, none, none, none, "DATA"⟩, "parse failed"⟩).2.map
        OutgoingRequest.method) = some "DELETE" ∧
    ("DELETE" : String) ≠ "GET" ∧ ("DELETE" : String) ≠ "HEAD" := by
  refine ⟨by decide, by decide, by decide⟩

/-- C5 amended: every outbound request either handler issues mirrors the
incoming method verbatim (GET/HEAD in supported use; any other method the
platform `Request` constructor accepts, e.g. DELETE, is mirrored unchanged),
carries no body, and carries exactly the four headers — the fixed User-Agent
constant, Accept from the incoming header when present and non-empty and
`*/*` otherwise (the source's `get('Accept') || '*/*'`), the fixed
Accept-Language, and Range from the incoming header when present and
non-empty and empty otherwise; no other inbound header is forwarded. -/
theorem c5_amended (req : IncomingRequest) (env : Env) (out : OutgoingRequest)
    (h : (Part000.handleRequest req env).2 = some out ∨
      (Worker.handleRequest req env).2 = some out) :
    out.method = req.method ∧ out.body = none ∧
    out.headers =
      [("User-Agent", userAgentValue),
       ("Accept", jsOrDefault req.accept "*/*"),
       ("Accept-Language", "en-US,en;q=0.9"),
       ("Range", jsOrDefault req.range "")] := by
  have hout : ∃ u, out = buildVideoRequest u req := by
    rcases h with h | h
    · rcases part000_snd_cases Part000.allowedDomains req env with h' | ⟨u, h'⟩
      · rw [Part000.handleRequest] at h
        rw [h'] at h
        exact absurd h (by simp)
      · rw [Part000.handleRequest] at h
        rw [h'] at h
        exact ⟨u, (Option.some.injEq _ _ ▸ h).symm⟩
    · rcases worker_snd_cases req env with h' | ⟨u, h'⟩
      · rw [h'] at h
        exact absurd h (by simp)
      · rw [h'] at h
        exact ⟨u, (Option.some.injEq _ _ ▸ h).symm⟩
  rcases hout with ⟨u, rfl⟩
  exact ⟨rfl, rfl, rfl⟩

theorem c5_amended_witness :
    (buildVideoRequest "https://storage.googleapis.com/v.mp4"
        ⟨"HEAD", some "aHR0cHM6Ly9zdG9yYWdlLmdvb2dsZWFwaXMuY29tL3YubXA0", none,
          some "bytes=0-1023"⟩).method = "HEAD" ∧
    (buildVideoRequest "https://storage.googleapis.com/v.mp4"
        ⟨"HEAD", some "aHR0cHM6Ly9zdG9yYWdlLmdvb2dsZWFwaXMuY29tL3YubXA0", none,
          some "bytes=0-1023"⟩).body = none ∧
    (buildVideoRequest "https://storage.googleapis.com/v.mp4"
        ⟨"HEAD", some "aHR0cHM6Ly9zdG9yYWdlLmdvb2dsZWFwaXMuY29tL3YubXA0", none,
          some "bytes=0-1023"⟩).headers =
      [("User-Agent", userAgentValue), ("Accept", "*/*"),
       ("Accept-Language", "en-US,en;q=0.9"), ("Range", "bytes=0-1023")] :=
  c5_amended
    ⟨"HEAD", some "aHR0cHM6Ly9zdG9yYWdlLmdvb2dsZWFwaXMuY29tL3YubXA0", none,
      some "bytes=0-1023"⟩
    ⟨FetchOutcome.success ⟨200, none, none, none, none, "DATA"⟩, "parse failed"⟩
    (buildVideoRequest "https://storage.googleapis.com/v.mp4"
      ⟨"HEAD", some "aHR0cHM6Ly9zdG9yYWdlLmdvb2dsZWFwaXMuY29tL3YubXA0", none,
        some "bytes=0-1023"⟩)
    (Or.inl (by decide))

/-- C1 counterexample: the decoded string `http://` begins with the required
prefix but fails structured URL parsing; the handler then returns the 500
Server-error response (the thrown parse error reaches the top-level catch),
not the 400 Invalid-URL response the claim requires. -/
theorem c1_counterexample :
    atob "aHR0cDovLw==" = some "http://" ∧
    jsStartsWith "http://" "http://" = true ∧
    parseURL "http://" = none ∧
    Part000.handleRequest ⟨"GET", some "aHR0cDovLw==", none, none⟩
        ⟨FetchOutcome.failure "network down", "parse failed"⟩ =
      (serverErrorResponse "parse failed", none) ∧
    (serverErrorResponse "parse failed").status = 500 ∧
    serverErrorResponse "parse failed" ≠ invalidURLResponse := by
  refine ⟨by decide, by decide, by decide, by decide, rfl, by decide⟩

/-- C1 amended: for every non-OPTIONS request whose token decodes, a decoded
string not beginning with `http://` or `https://` yields the 400 Invalid-URL
response; but a decoded string that begins with such a prefix and fails URL
parsing falls through to the top-level catch and yields the 500 Server-error
response carrying the platform parse-error message, in both handlers. -/
theorem c1_amended (req : IncomingRequest) (env : Env) (t u : String)
    (hm : req.method ≠ "OPTIONS") (hv : req.vid = some t) (ht : t ≠ "")
    (hd : atob t = some u) :
    ((jsStartsWith u "http://" = false ∧ jsStartsWith u "https://" = false) →
      Part000.handleRequest req env = (invalidURLResponse, none) ∧
      Worker.handleRequest req env = (invalidURLResponse, none)) ∧
    ((jsStartsWith u "http://" || jsStartsWith u "https://") = true →
      parseURL u = none →
      Part000.handleRequest req env = (serverErrorResponse env.parseErrMsg, none) ∧
      Worker.handleRequest req env = (serverErrorResponse env.parseErrMsg, none)) := by
  constructor
  · intro hcond
    constructor
    · unfold Part000.handleRequest Part000.handleRequestWith
      rw [if_neg hm, hv]
      simp only [if_neg ht, hd, if_pos hcond]
    · unfold Worker.handleRequest
      rw [if_neg hm, hv]
      simp only [if_neg ht, hd, if_pos hcond]
  · intro hs hp
    constructor
    · unfold Part000.handleRequest Part000.handleRequestWith
      rw [if_neg hm, hv]
      simp only [if_neg ht, hd, if_neg (scheme_cond_neg hs), hp]
    · unfold Worker.handleRequest
      rw [if_neg hm, hv]
      simp only [if_neg ht, hd, if_neg (scheme_cond_neg hs), hp]

theorem c1_amended_witness :
    Part000.handleRequest ⟨"GET", some "Lw==", none, none⟩
        ⟨FetchOutcome.failure "network down", "parse failed"⟩ =
      (invalidURLResponse, none) :=
  ((c1_amended _ _ "Lw==" "/" (by decide) rfl (by decide) (by decide)).1 (by decide)).1

/-- C9: decoding the standard Base64 encoding of a valid http(s) URL through
the token decoder recovers the URL exactly (decode is a left inverse of
encode on such URLs); furthermore the token for `https://example.com/v.mp4`
is exactly the documented `aHR0cHM6Ly9leGFtcGxlLmNvbS92Lm1wNA==`. -/
theorem c9_token_roundtrip :
    (∀ s : String,
      (jsStartsWith s "http://" || jsStartsWith s "https://") = true →
      (parseURL s).isSome = true →
      (∀ c ∈ s.data, c.toNat < 256) →
      atob (btoa s) = some s) ∧
    btoa "https://example.com/v.mp4" = "aHR0cHM6Ly9leGFtcGxlLmNvbS92Lm1wNA==" := by
  refine ⟨?_, by decide⟩
  intro s _ _ h
  exact atob_btoa h

theorem c9_token_roundtrip_witness :
    atob (btoa "https://example.com/v.mp4") = some "https://example.com/v.mp4" :=
  c9_token_roundtrip.1 "https://example.com/v.mp4" (by decide) (by decide) (by decide)

/-- Values carried by a given header key, in order of appearance. -/
def headerValues (key : String) (hs : List (String × String)) : List String :=
  hs.filterMap (fun kv => if kv.1 = key then some kv.2 else none)

theorem relay_headerValues_contentRange (r : OriginResponse) :
    headerValues "Content-Range" (relayResponse r).headers =
      (match r.contentRange with | some v => [v] | none => []) := by
  cases hcl : r.contentLength <;> cases hcr : r.contentRange <;>
    simp [relayResponse, headerValues, corsHeaders, hcl, hcr]

theorem relay_headerValues_contentLength (r : OriginResponse) :
    headerValues "Content-Length" (relayResponse r).headers =
      (match r.contentLength with | some v => [v] | none => []) := by
  cases hcl : r.contentLength <;> cases hcr : r.contentRange <;>
    simp [relayResponse, headerValues, corsHeaders, hcl, hcr]

theorem part000_fetch_result (allowed : List String) (req : IncomingRequest) (env : Env)
    (r : OriginResponse) (hf : env.fetch = FetchOutcome.success r) :
    (Part000.handleRequestWith allowed req env).2 = none ∨
    (Part000.handleRequestWith allowed req env).1 = relayResponse r := by
  unfold Part000.handleRequestWith
  split
  · exact Or.inl rfl
  split
  · exact Or.inl rfl
  split
  · exact Or.inl rfl
  split
  · exact Or.inl rfl
  split
  · exact Or.inl rfl
  split
  · exact Or.inl rfl
  split
  · exact Or.inl rfl
  split
  · next msg heq => rw [hf] at heq; exact absurd heq (by simp)
  · next resp heq =>
      rw [hf] at heq
      have : resp = r := by injection heq.symm
      rw [this]
      exact Or.inr rfl

/-- C6: whenever the `part_000` handler issued the outbound fetch and the
origin answered, the proxy response's status equals the origin status
verbatim; the `Content-Range` header appears with exactly the origin's
value when the origin supplied one (and not at all otherwise), and
`Content-Length` likewise appears if and only if the origin supplied one —
none is fabricated. -/
theorem c6_relay_forwarding (req : IncomingRequest) (env : Env) (r : OriginResponse)
    (out : OutgoingRequest)
    (hf : env.fetch = FetchOutcome.success r)
    (hsnd : (Part000.handleRequest req env).2 = some out) :
    (Part000.handleRequest req env).1 = relayResponse r ∧
    (Part000.handleRequest req env).1.status = r.status ∧
    headerValues "Content-Range" (Part000.handleRequest req env).1.headers =
      (match r.contentRange with | some v => [v] | none => []) ∧
    headerValues "Content-Length" (Part000.handleRequest req env).1.headers =
      (match r.contentLength with | some v => [v] | none => []) := by
  have h1 : (Part000.handleRequest req env).1 = relayResponse r := by
    rcases part000_fetch_result Part000.allowedDomains req env r hf with h | h
    · rw [Part000.handleRequest] at hsnd
      rw [h] at hsnd
      exact absurd hsnd (by simp)
    · exact h
  refine ⟨h1, ?_, ?_, ?_⟩
  · rw [h1]
    rfl
  · rw [h1]
    exact relay_headerValues_contentRange r
  · rw [h1]
    exact relay_headerValues_contentLength r

theorem c6_relay_forwarding_witness :
    (Part000.handleRequest
        ⟨"GET", some "aHR0cHM6Ly9zdG9yYWdlLmdvb2dsZWFwaXMuY29tL3YubXA0", none,
          some "bytes=0-99"⟩
        ⟨FetchOutcome.success
          ⟨206, some "video/mp4", some "bytes", some "100", some "bytes 0-99/1000", "DATA"⟩,
          "parse failed"⟩).1.status = 206 ∧
    headerValues "Content-Range"
        (Part000.handleRequest
          ⟨"GET", some "aHR0cHM6Ly9zdG9yYWdlLmdvb2dsZWFwaXMuY29tL3YubXA0", none,
            some "bytes=0-99"⟩
          ⟨FetchOutcome.success
            ⟨206, some "video/mp4", some "bytes", some "100", some "bytes 0-99/1000", "DATA"⟩,
            "parse failed"⟩).1.headers = ["bytes 0-99/1000"] :=
  ⟨(c6_relay_forwarding _ _
      ⟨206, some "video/mp4", some "bytes", some "100", some "bytes 0-99/1000", "DATA"⟩
      (buildVideoRequest "https://storage.googleapis.com/v.mp4"
        ⟨"GET", some "aHR0cHM6Ly9zdG9yYWdlLmdvb2dsZWFwaXMuY29tL3YubXA0", none,
          some "bytes=0-99"⟩)
      rfl (by decide)).2.1,
   (c6_relay_forwarding _ _
      ⟨206, some "video/mp4", some "bytes", some "100", some "bytes 0-99/1000", "DATA"⟩
      (buildVideoRequest "https://storage.googleapis.com/v.mp4"
        ⟨"GET", some "aHR0cHM6Ly9zdG9yYWdlLmdvb2dsZWFwaXMuY29tL3YubXA0", none,
          some "bytes=0-99"⟩)
      rfl (by decide)).2.2.1⟩

/-! ### Non-occurrence machinery for the origin-URL secrecy claim -/

/-- Which parts of a response mention the string `u`: `true` means no header
key or value contains `u`, and the body (when not the forwarded origin
stream) does not contain `u` either. -/
def respAvoids (u : String) (stream : Option String) (p : ProxyResponse) : Bool :=
  p.headers.all (fun kv => !(strOccurs u kv.1) && !(strOccurs u kv.2)) &&
  (match p.body with
   | none => true
   | some b => (some b == stream) || !(strOccurs u b))

/-- The forwarded origin body stream, when the fetch succeeded. -/
def streamBody (env : Env) : Option String :=
  match env.fetch with
  | FetchOutcome.success r => some r.body
  | FetchOutcome.failure _ => none

def optAvoids (u : String) : Option String → Bool
  | none => true
  | some v => !(strOccurs u v)

theorem prefix_http {u : String}
    (hs : (jsStartsWith u "http://" || jsStartsWith u "https://") = true) :
    listStartsWith u.data "http".data = true := by
  simp only [Bool.or_eq_true] at hs
  rcases hs with h | h
  · exact listStartsWith_trans h (by decide)
  · exact listStartsWith_trans h (by decide)

theorem occurs_const_false {u : String}
    (hpre : listStartsWith u.data "http".data = true)
    (C : String) (hC : strOccurs "http" C = false) : strOccurs u C = false := by
  cases h : strOccurs u C
  · rfl
  · have h2 : strOccurs "http" C = true := listOccurs_of_startsWith hpre h
    simp [hC] at h2

theorem head_of_prefix {u : String}
    (hpre : listStartsWith u.data "http".data = true) :
    ∃ tl, u.data = 'h' :: tl := by
  cases hu : u.data with
  | nil => rw [hu] at hpre; exact absurd hpre (by decide)
  | cons c tl =>
    rw [hu] at hpre
    simp only [listStartsWith, Bool.and_eq_true, beq_iff_eq] at hpre
    exact ⟨tl, by rw [hpre.1]⟩

theorem serverErrorBody_avoids {u m : String}
    (hpre : listStartsWith u.data "http".data = true)
    (hquote : ('"' : Char) ∉ u.data)
    (hesc : noJsonEscape m = true) (hocc : strOccurs u m = false) :
    strOccurs u (serverErrorBody m) = false := by
  cases h : strOccurs u (serverErrorBody m)
  · rfl
  exfalso
  obtain ⟨tl, htl⟩ := head_of_prefix hpre
  have hocc' : listOccurs u.data
      ("\x7b\"error\":\"Server error\",\"message\":\"".data ++ (m.data ++ "\"\x7d".data)) =
      true := by
    have hb : serverErrorBody m =
        "\x7b\"error\":\"Server error\",\"message\":\"" ++ (m ++ "\"\x7d") := by
      unfold serverErrorBody
      rw [jsonEscape_eq_self hesc, String.append_assoc]
    have h' : strOccurs u (serverErrorBody m) = true := h
    rw [hb] at h'
    simpa [strOccurs] using h'
  have hstep : listOccurs u.data (m.data ++ "\"\x7d".data) = true :=
    listOccurs_append_of_head_notin htl (by decide) hocc'
  rcases listOccurs_append_cases hstep with h1 | h1 | ⟨hh, t2, he, hm⟩
  · have : strOccurs u m = true := h1
    simp [hocc] at this
  · have := listOccurs_head_mem htl h1
    simp at this
  · have hh2 : hh = '"' := by
      have : "\"\x7d".data = '"' :: ['\x7d'] := rfl
      rw [this] at he
      injection he with he1 _
      exact he1.symm
    exact hquote (hh2 ▸ hm)

theorem respAvoids_preflight {u : String} {stream : Option String}
    (hpre : listStartsWith u.data "http".data = true) :
    respAvoids u stream preflightResponse = true := by
  have h1 := occurs_const_false hpre "Access-Control-Allow-Origin" (by decide)
  have h2 := occurs_const_false hpre "*" (by decide)
  have h3 := occurs_const_false hpre "Access-Control-Allow-Methods" (by decide)
  have h4 := occurs_const_false hpre "GET, HEAD, OPTIONS" (by decide)
  have h5 := occurs_const_false hpre "Access-Control-Allow-Headers" (by decide)
  have h6 := occurs_const_false hpre "Range, Content-Type" (by decide)
  simp [respAvoids, preflightResponse, corsHeaders, h1, h2, h3, h4, h5, h6]

theorem respAvoids_constError {u body : String} {stream : Option String}
    (hpre : listStartsWith u.data "http".data = true)
    (hbody : strOccurs "http" body = false) {status : Nat} :
    respAvoids u stream ⟨status, jsonHeaders, some body⟩ = true := by
  have h1 := occurs_const_false hpre "Content-Type" (by decide)
  have h2 := occurs_const_false hpre "application/json" (by decide)
  have h3 := occurs_const_false hpre body hbody
  simp [respAvoids, jsonHeaders, h1, h2, h3]

theorem respAvoids_serverError {u m : String} {stream : Option String}
    (hpre : listStartsWith u.data "http".data = true)
    (hquote : ('"' : Char) ∉ u.data)
    (hesc : noJsonEscape m = true) (hocc : strOccurs u m = false) :
    respAvoids u stream (serverErrorResponse m) = true := by
  have h1 := occurs_const_false hpre "Content-Type" (by decide)
  have h2 := occurs_const_false hpre "application/json" (by decide)
  have h3 := serverErrorBody_avoids hpre hquote hesc hocc
  simp [respAvoids, serverErrorResponse, jsonHeaders, h1, h2, h3]

theorem jsOrDefault_avoids {u d : String} {v : Option String}
    (hd : strOccurs u d = false) (hv : optAvoids u v = true) :
    strOccurs u (jsOrDefault v d) = false := by
  cases v with
  | none => simpa [jsOrDefault] using hd
  | some s =>
    unfold jsOrDefault
    by_cases hs : s = ""
    · simpa [hs] using hd
    · simp only [if_neg hs]
      simp only [optAvoids, Bool.not_eq_true'] at hv
      exact hv

theorem respAvoids_relay {u : String} {r : OriginResponse} {stream : Option String}
    (hpre : listStartsWith u.data "http".data = true)
    (hstream : stream = some r.body)
    (hfields : (optAvoids u r.contentType && optAvoids u r.acceptRanges &&
      optAvoids u r.contentLength && optAvoids u r.contentRange) = true) :
    respAvoids u stream (relayResponse r) = true := by
  simp only [Bool.and_eq_true] at hfields
  obtain ⟨⟨⟨hct, har⟩, hcl⟩, hcr⟩ := hfields
  have k1 := occurs_const_false hpre "Content-Type" (by decide)
  have k2 := occurs_const_false hpre "Accept-Ranges" (by decide)
  have k3 := occurs_const_false hpre "Access-Control-Allow-Origin" (by decide)
  have k4 := occurs_const_false hpre "Access-Control-Allow-Methods" (by decide)
  have k5 := occurs_const_false hpre "Access-Control-Allow-Headers" (by decide)
  have k6 := occurs_const_false hpre "Cache-Control" (by decide)
  have k7 := occurs_const_false hpre "Content-Length" (by decide)
  have k8 := occurs_const_false hpre "Content-Range" (by decide)
  have v3 := occurs_const_false hpre "*" (by decide)
  have v4 := occurs_const_false hpre "GET, HEAD, OPTIONS" (by decide)
  have v5 := occurs_const_false hpre "Range, Content-Type" (by decide)
  have v6 := occurs_const_false hpre "public, max-age=3600" (by decide)
  have hct2 : strOccurs u (jsOrDefault r.contentType "video/mp4") = false :=
    jsOrDefault_avoids (occurs_const_false hpre "video/mp4" (by decide)) hct
  have har2 : strOccurs u (jsOrDefault r.acceptRanges "bytes") = false :=
    jsOrDefault_avoids (occurs_const_false hpre "bytes" (by decide)) har
  cases hcl' : r.contentLength <;> cases hcr' : r.contentRange <;>
    · rw [hcl'] at hcl
      rw [hcr'] at hcr
      simp only [optAvoids, Bool.not_eq_true'] at hcl hcr
      simp [respAvoids, relayResponse, corsHeaders, hstream, hcl', hcr',
        k1, k2, k3, k4, k5, k6, k7, k8, v3, v4, v5, v6, hct2, har2, hcl, hcr]

/-- C3 counterexample: when the outbound fetch fails with a platform error
message that contains the decoded origin URL (as real network-stack messages
can), the 500 response body quotes that message verbatim, so the origin URL
appears in an error response body — refuting "never appears in any
response". -/
theorem c3_counterexample :
    atob "aHR0cHM6Ly9zdG9yYWdlLmdvb2dsZWFwaXMuY29tL3YubXA0" =
      some "https://storage.googleapis.com/v.mp4" ∧
    (Part000.handleRequest
        ⟨"GET", some "aHR0cHM6Ly9zdG9yYWdlLmdvb2dsZWFwaXMuY29tL3YubXA0", none, none⟩
        ⟨FetchOutcome.failure "fetch failed for https://storage.googleapis.com/v.mp4",
          "parse failed"⟩).1 =
      serverErrorResponse "fetch failed for https://storage.googleapis.com/v.mp4" ∧
    strOccurs "https://storage.googleapis.com/v.mp4"
      (serverErrorBody "fetch failed for https://storage.googleapis.com/v.mp4") = true ∧
    respAvoids "https://storage.googleapis.com/v.mp4"
      (streamBody
        ⟨FetchOutcome.failure "fetch failed for https://storage.googleapis.com/v.mp4",
          "parse failed"⟩)
      (Part000.handleRequest
        ⟨"GET", some "aHR0cHM6Ly9zdG9yYWdlLmdvb2dsZWFwaXMuY29tL3YubXA0", none, none⟩
        ⟨FetchOutcome.failure "fetch failed for https://storage.googleapis.com/v.mp4",
          "parse failed"⟩).1 = false := by
  refine ⟨by decide, by decide, by decide, by decide⟩

/-- C3 amended: the handlers never themselves insert the decoded origin URL
into a response — every header and every error body is built from fixed
constants, origin-supplied header values, and the platform error message, so
if those environment-supplied strings do not contain the URL then no header
and no non-stream body of any response contains it; but the 500 body embeds
the platform error message verbatim, so the URL is echoed exactly when that
message contains it. -/
theorem c3_amended (req : IncomingRequest) (env : Env) (t u : String)
    (hv : req.vid = some t) (hd : atob t = some u)
    (hs : (jsStartsWith u "http://" || jsStartsWith u "https://") = true)
    (hquote : ('"' : Char) ∉ u.data)
    (hpm : noJsonEscape env.parseErrMsg = true ∧ strOccurs u env.parseErrMsg = false)
    (hfm : ∀ m, env.fetch = FetchOutcome.failure m →
      noJsonEscape m = true ∧ strOccurs u m = false)
    (hoh : ∀ r, env.fetch = FetchOutcome.success r →
      (optAvoids u r.contentType && optAvoids u r.acceptRanges &&
        optAvoids u r.contentLength && optAvoids u r.contentRange) = true) :
    respAvoids u (streamBody env) (Part000.handleRequest req env).1 = true ∧
    respAvoids u (streamBody env) (Worker.handleRequest req env).1 = true := by
  have hpre := prefix_http hs
  have hts : t ≠ "" := by
    intro h0
    subst h0
    have hu : u = "" := by
      have h1 : atob "" = some "" := by decide
      rw [h1] at hd
      exact (Option.some.injEq _ _ ▸ hd).symm
    rw [hu] at hs
    exact absurd hs (by decide)
  constructor
  · by_cases hm : req.method = "OPTIONS"
    · unfold Part000.handleRequest Part000.handleRequestWith
      rw [if_pos hm]
      exact respAvoids_preflight hpre
    · cases hp : parseURL u with
      | none =>
        have hred : Part000.handleRequest req env =
            (serverErrorResponse env.parseErrMsg, none) := by
          unfold Part000.handleRequest Part000.handleRequestWith
          rw [if_neg hm, hv]
          simp only [if_neg hts, hd, if_neg (scheme_cond_neg hs), hp]
        rw [hred]
        exact respAvoids_serverError hpre hquote hpm.1 hpm.2
      | some obj =>
        rw [Part000.handleRequest,
          part000_reduce Part000.allowedDomains req env hm hv hts hd hs hp]
        split
        · exact respAvoids_constError hpre (by decide)
        · cases hf : env.fetch with
          | failure msg =>
            obtain ⟨hesc, hocc⟩ := hfm msg hf
            exact respAvoids_serverError hpre hquote hesc hocc
          | success r =>
            have hstream : streamBody env = some r.body := by
              unfold streamBody
              rw [hf]
            exact respAvoids_relay hpre hstream (hoh r hf)
  · by_cases hm : req.method = "OPTIONS"
    · unfold Worker.handleRequest
      rw [if_pos hm]
      exact respAvoids_preflight hpre
    · cases hp : parseURL u with
      | none =>
        have hred : Worker.handleRequest req env =
            (serverErrorResponse env.parseErrMsg, none) := by
          unfold Worker.handleRequest
          rw [if_neg hm, hv]
          simp only [if_neg hts, hd, if_neg (scheme_cond_neg hs), hp]
        rw [hred]
        exact respAvoids_serverError hpre hquote hpm.1 hpm.2
      | some obj =>
        rw [worker_reduce req env hm hv hts hd hs hp]
        cases hf : env.fetch with
        | failure msg =>
          obtain ⟨hesc, hocc⟩ := hfm msg hf
          exact respAvoids_serverError hpre hquote hesc hocc
        | success r =>
          have hstream : streamBody env = some r.body := by
            unfold streamBody
            rw [hf]
          exact respAvoids_relay hpre hstream (hoh r hf)

theorem c3_amended_witness :
    respAvoids "https://example.com/v.mp4"
      (streamBody
        ⟨FetchOutcome.success ⟨200, some "video/mp4", none, none, none, "DATA"⟩, "bad url"⟩)
      (Worker.handleRequest
        ⟨"GET", some "aHR0cHM6Ly9leGFtcGxlLmNvbS92Lm1wNA==", none, none⟩
        ⟨FetchOutcome.success ⟨200, some "video/mp4", none, none, none, "DATA"⟩,
          "bad url"⟩).1 = true :=
  (c3_amended
    ⟨"GET", some "aHR0cHM6Ly9leGFtcGxlLmNvbS92Lm1wNA==", none, none⟩
    ⟨FetchOutcome.success ⟨200, some "video/mp4", none, none, none, "DATA"⟩, "bad url"⟩
    "aHR0cHM6Ly9leGFtcGxlLmNvbS92Lm1wNA==" "https://example.com/v.mp4"
    rfl (by decide) (by decide) (by decide) ⟨by decide, by decide⟩
    (fun m h => FetchOutcome.noConfusion h)
    (fun r h => by injection h with h2; rw [← h2]; decide)).2
